import Mathlib

/-!
Verification of the data-cleaning pipeline of `dashboard.py` (Indian startup
funding dashboard).  The pipeline is shallowly embedded: CSV cells are the
strings read from the file, pandas column operations become per-row list
transforms, float arithmetic is modelled exactly over `ℚ`, and the per-cell
cleaning helpers (`clean_amount`, `clean_date`, the text-normalisation loop)
are translated function by function from the source.
-/

namespace Dashboard

/-! ### Character-level helpers (Python string primitives) -/

/-- Python `str.strip` whitespace class (ASCII scope of the data). -/
def pySpace (c : Char) : Bool :=
  c == ' ' || c == '\t' || c == '\n' || c == '\r' || c == '\x0b' || c == '\x0c'

/-- Python `str.strip`: drop leading and trailing whitespace. -/
def stripChars (cs : List Char) : List Char :=
  ((cs.dropWhile pySpace).reverse.dropWhile pySpace).reverse

/-- Python `str.lower`, char by char (ASCII scope of the data). -/
def lowerChars (cs : List Char) : List Char :=
  cs.map Char.toLower

/-- Decimal digit list to number: `foldl (10*acc + digit)`. -/
def digitsToNat (cs : List Char) : Nat :=
  cs.foldl (fun a c => 10 * a + (c.toNat - 48)) 0

/-! ### Amount Normalizer (`clean_amount`, dashboard.py lines 56-64)

`clean_amount` receives the raw Amount cell, removes thousands separators and
dollar signs, strips and lower-cases it, rejects cells containing one of the
unit/unknown tokens, and otherwise parses the text as a Python float and
divides by 1,000,000.  Arithmetic is modelled exactly in `ℚ`; float literals
with numeric-literal underscores and the special values `inf`/`nan` are not
modelled (they never produce a record that survives the pipeline's
`0 < amount < 1000` window). -/

/-- The rejection tokens of `clean_amount`. -/
def amountTokens : List String := ["lac", "lakh", "cr", "unknown", "n/a"]

/-- The text preprocessing of `clean_amount`:
`x.replace(',', '').replace('$', '').strip().lower()`. -/
def processAmount (cs : List Char) : List Char :=
  lowerChars (stripChars ((cs.filter (· ≠ ',')).filter (· ≠ '$')))

/-- Token containment test of `clean_amount`:
`any(u in x for u in ['lac', 'lakh', 'cr', 'unknown', 'n/a'])`. -/
def containsToken (cs : List Char) : Bool :=
  amountTokens.any (fun t => decide (t.data <:+: cs))

/-- Optional sign prefix; returns the sign and the rest. -/
def parseSign : List Char → Bool × List Char
  | '+' :: rest => (false, rest)
  | '-' :: rest => (true, rest)
  | cs => (false, cs)

/-- Exponent suffix of a Python float literal (after the `e`/`E`). -/
def parseExpTail (cs : List Char) : Option Int :=
  let (neg, cs1) := parseSign cs
  let ds := cs1.takeWhile Char.isDigit
  if ds = [] ∨ cs1.dropWhile Char.isDigit ≠ [] then none
  else some (if neg then -(digitsToNat ds : Int) else (digitsToNat ds : Int))

/-- Python `float(...)` on decimal literals, exactly over `ℚ`:
optional sign, integer digits and/or a fractional part, optional exponent.
The value `sign * (ipart.frac) * 10^exp` is assembled with `mkRat` over
integer arithmetic so that it is exact (and kernel-computable). -/
def pyFloat? (cs : List Char) : Option ℚ :=
  let (neg, cs1) := parseSign cs
  let ip := cs1.takeWhile Char.isDigit
  let rest1 := cs1.dropWhile Char.isDigit
  let (fp, rest2) :=
    match rest1 with
    | '.' :: r => (some (r.takeWhile Char.isDigit), r.dropWhile Char.isDigit)
    | _ => (none, rest1)
  let frac := fp.getD []
  if ip = [] ∧ frac = [] then none else
  let n : Int := (digitsToNat ip * 10 ^ frac.length + digitsToNat frac : Nat)
  let n : Int := if neg then -n else n
  match rest2 with
  | [] => some (mkRat n (10 ^ frac.length))
  | 'e' :: r3 =>
    (parseExpTail r3).map (fun z =>
      if 0 ≤ z then mkRat (n * 10 ^ z.toNat) (10 ^ frac.length)
      else mkRat n (10 ^ frac.length * 10 ^ (-z).toNat))
  | 'E' :: r3 =>
    (parseExpTail r3).map (fun z =>
      if 0 ≤ z then mkRat (n * 10 ^ z.toNat) (10 ^ frac.length)
      else mkRat n (10 ^ frac.length * 10 ^ (-z).toNat))
  | _ => none

/-- `clean_amount` (dashboard.py lines 56-64): reject token-bearing cells,
otherwise parse and convert raw dollars to millions of USD. -/
def clean_amount (s : String) : Option ℚ :=
  let x := processAmount s.data
  if containsToken x then none
  else (pyFloat? x).map (· / 1000000)

/-! ### Date Normalizer (`clean_date`, dashboard.py lines 71-75)

`clean_date` is `datetime.strptime(str(d).strip(), '%d/%m/%Y')` with failures
mapped to a missing value.  CPython's `%d` and `%m` accept one- or two-digit
fields (values 1-31 resp. 1-12), `%Y` accepts exactly four digits, the whole
string must be consumed, and the `datetime` constructor then enforces
`1 <= year <= 9999` and a valid Gregorian calendar day. -/

structure Date where
  year : Nat
  month : Nat
  day : Nat
deriving DecidableEq, Repr

def isLeapYear (y : Nat) : Bool :=
  y % 4 = 0 && (y % 100 ≠ 0 || y % 400 = 0)

def daysInMonth (y m : Nat) : Nat :=
  if m = 2 then (if isLeapYear y then 29 else 28)
  else if m = 4 ∨ m = 6 ∨ m = 9 ∨ m = 11 then 30
  else 31

/-- The `datetime(year, month, day)` constructor check (month and day field
ranges are already enforced by the `strptime` patterns). -/
def validDateB (y m d : Nat) : Bool :=
  1 ≤ y && y ≤ 9999 && d ≤ daysInMonth y m

/-- Full calendar validity of a parsed date, with all the range checks the
combination of the `strptime` field patterns and the `datetime` constructor
enforces: year 1-9999, month 1-12, day 1 to the length of that month. -/
def isValidDate (dt : Date) : Bool :=
  1 ≤ dt.year && dt.year ≤ 9999 && 1 ≤ dt.month && dt.month ≤ 12 &&
  1 ≤ dt.day && dt.day ≤ daysInMonth dt.year dt.month

/-- The `%d` / `%m` field patterns of CPython `strptime`: one or two decimal
digits with value between 1 and `hi`. -/
def twoDigitField (cs : List Char) (hi : Nat) : Option Nat :=
  if cs.all Char.isDigit ∧ 1 ≤ cs.length ∧ cs.length ≤ 2
      ∧ 1 ≤ digitsToNat cs ∧ digitsToNat cs ≤ hi then
    some (digitsToNat cs)
  else none

/-- The `%Y` field pattern: exactly four decimal digits. -/
def yearField (cs : List Char) : Option Nat :=
  if cs.all Char.isDigit ∧ cs.length = 4 then some (digitsToNat cs) else none

def mkDMY (ds ms ys : List Char) : Option Date :=
  match twoDigitField ds 31, twoDigitField ms 12, yearField ys with
  | some d, some m, some y => if validDateB y m d then some ⟨y, m, d⟩ else none
  | _, _, _ => none

/-- `strptime(s, '%d/%m/%Y')` on an already-stripped string: split on the two
slash separators and check the three fields. -/
def parseDMY (cs : List Char) : Option Date :=
  let p1 := cs.takeWhile (· ≠ '/')
  match cs.dropWhile (· ≠ '/') with
  | '/' :: r2 =>
    let p2 := r2.takeWhile (· ≠ '/')
    match r2.dropWhile (· ≠ '/') with
    | '/' :: p3 => if p3.contains '/' then none else mkDMY p1 p2 p3
    | _ => none
  | _ => none

/-- `clean_date` (dashboard.py lines 71-75). -/
def clean_date (s : String) : Option Date :=
  parseDMY (stripChars s.data)

/-! ### Categorical Normalizer (dashboard.py lines 83-94)

The text-cleaning loop applies `.astype(str).str.strip().str.title()` and the
full-string replacement of `'Nan'`/`'N/A'` by `'Other'` to the four columns
Sector, City, Investment Type, Startup Name; only City and Investment Type
then get an alias `replace`. -/

/-- CPython `str.title`: an alphabetic character is upper-cased after a
non-alphabetic character (or at the start) and lower-cased after an
alphabetic one.  The boolean carries "previous character was alphabetic". -/
def pyTitleAux : List Char → Bool → List Char
  | [], _ => []
  | c :: rest, prev =>
    if c.isAlpha then (if prev then c.toLower else c.toUpper) :: pyTitleAux rest true
    else c :: pyTitleAux rest false

/-- Python `str.title`. -/
def pyTitle (cs : List Char) : List Char :=
  pyTitleAux cs false

/-- One column step of the text-cleaning loop:
`astype(str).str.strip().str.title()` then `replace` of the literal values
`'Nan'` and `'N/A'` with `'Other'`. -/
def normalizeText (s : String) : String :=
  let t := String.mk (pyTitle (stripChars s.data))
  if t = "Nan" ∨ t = "N/A" then "Other" else t

/-- The City alias table (dashboard.py lines 88-93). -/
def cityAliases : List (String × String) :=
  [("Bengaluru", "Bangalore"), ("New Delhi", "Delhi"),
   ("Gurugram", "Gurgaon"), ("Hydrabad", "Hyderabad")]

/-- The Investment Type alias table (dashboard.py line 94). -/
def investmentAliases : List (String × String) :=
  [("Seed/ Angel Funding", "Seed/Angel Funding")]

/-- Pandas `Series.replace` with a dict of full-string keys: exact-match
lookup, identity when absent. -/
def applyAlias (m : List (String × String)) (s : String) : String :=
  match m.lookup s with
  | some t => t
  | none => s

def cleanSector (s : String) : String := normalizeText s

def cleanStartupName (s : String) : String := normalizeText s

def cleanCity (s : String) : String := applyAlias cityAliases (normalizeText s)

def cleanInvestmentType (s : String) : String :=
  applyAlias investmentAliases (normalizeText s)

/-! ### The cleaned record and the whole load (`load_data`, lines 48-96) -/

/-- Zero-padded digit rendering helpers for the period string. -/
def digitChar (d : Nat) : Char := Char.ofNat (48 + d)

def pad4 (y : Nat) : List Char :=
  [digitChar (y / 1000 % 10), digitChar (y / 100 % 10),
   digitChar (y / 10 % 10), digitChar (y % 10)]

def pad2 (m : Nat) : List Char := [digitChar (m / 10 % 10), digitChar (m % 10)]

def fmtYM (y m : Nat) : String := String.mk (pad4 y ++ '-' :: pad2 m)

/-- `df['Date'].dt.to_period('M').astype(str)` (line 80): the year-month
period rendered as `YYYY-MM` with zero padding. -/
def periodString (d : Date) : String := fmtYM d.year d.month

/-- One cleaned row of the dataset, including the derived `Year` and `Month`
columns added at lines 79-80. -/
structure FundingRecord where
  date : Date
  startupName : String
  sector : String
  city : String
  investmentType : String
  amount : ℚ
  year : Nat
  month : String
deriving DecidableEq, Repr

/-- Cleaning of a single extracted row, in the source's filter order: amount
parse, `dropna`, `Amount > 0` (lines 66-68), date parse and `dropna`
(lines 77-78), derived columns (79-80), text normalisation and aliasing
(83-94), and the final `Amount < 1000` cut (line 95).  The fixed column
positions 13, 14, 15, 17, 19, 20 come from the extraction at line 49. -/
def cleanRow (row : List String) : Option FundingRecord :=
  (row.get? 20).bind fun amtCell =>
  (clean_amount amtCell).bind fun a =>
  if a ≤ 0 then none else
  (row.get? 13).bind fun dateCell =>
  (clean_date dateCell).bind fun d =>
  (row.get? 14).bind fun nameC =>
  (row.get? 15).bind fun secC =>
  (row.get? 17).bind fun cityC =>
  (row.get? 19).bind fun invC =>
  if a < 1000 then
    some { date := d, startupName := cleanStartupName nameC,
           sector := cleanSector secC, city := cleanCity cityC,
           investmentType := cleanInvestmentType invC,
           amount := a, year := d.year, month := periodString d }
  else none

inductive LoadError where
  | schemaMismatch
  | dtypeError
deriving DecidableEq, Repr

/-- A calendar date representable as a pandas nanosecond `Timestamp`:
`Timestamp.min` is 1677-09-21 12:43, `Timestamp.max` is 2262-04-11 23:47, so
a midnight `datetime` converts iff 1677-09-22 <= date <= 2262-04-11 (the
encoding `10000*y + 100*m + d` is order-isomorphic to the date order). -/
def tsRepresentable (dt : Date) : Bool :=
  decide (16770922 ≤ 10000 * dt.year + 100 * dt.month + dt.day) &&
  decide (10000 * dt.year + 100 * dt.month + dt.day ≤ 22620411)

/-- Whether a row survives the amount stage (lines 66-68): its Amount cell
parses and the converted amount is strictly positive.  Only these rows are
still present when the Date column is parsed at line 77. -/
def amountSurvives (row : List String) : Bool :=
  match row.get? 20 with
  | some c =>
    match clean_amount c with
    | some a => decide (0 < a)
    | none => false
  | none => false

/-- The parsed Date cell of a row. -/
def rowDate? (row : List String) : Option Date :=
  (row.get? 13).bind fun c => clean_date c

/-- Whether a row's parsed date prevents pandas from converting the mapped
Date column to `datetime64[ns]`: `clean_date` succeeded but the value is
outside the `Timestamp` bounds, so the column stays object-dtyped. -/
def breaksDatetimeDtype (row : List String) : Bool :=
  match rowDate? row with
  | some d => !tsRepresentable d
  | none => false

/-- `load_data` after the CSV read (lines 48-96): the positional column
extraction `data.iloc[:, [13, 14, 15, 17, 19, 20]]` fails for the whole load
when the table does not have the required width (the `except` branch at
lines 51-53 surfaces an error and yields no records).  Then, if any row
surviving the amount filter has a parsed date outside the pandas `Timestamp`
bounds, the applied Date column stays object-dtyped and
`df['Date'].dt.year` at line 79 raises an uncaught `AttributeError`: the
whole load fails and no dataset is produced (`dtypeError`).  Otherwise every
row is cleaned and the failing ones are dropped. -/
def loadAndCleanRecords (rows : List (List String)) :
    Except LoadError (List FundingRecord) :=
  if rows.all (fun r => 20 < r.length) then
    if rows.any (fun row => amountSurvives row && breaksDatetimeDtype row) then
      .error .dtypeError
    else .ok (rows.filterMap cleanRow)
  else .error .schemaMismatch

/-! ### Filtering (dashboard.py lines 244-249) -/

/-- The sidebar filter: inclusive year range, city membership, inclusive
amount range (`Series.between` is inclusive on both ends). -/
structure FilterSpec where
  yearLo : Nat
  yearHi : Nat
  cities : List String
  amtLo : ℚ
  amtHi : ℚ

def recordPasses (fs : FilterSpec) (r : FundingRecord) : Prop :=
  fs.yearLo ≤ r.year ∧ r.year ≤ fs.yearHi ∧ r.city ∈ fs.cities ∧
    fs.amtLo ≤ r.amount ∧ r.amount ≤ fs.amtHi

instance (fs : FilterSpec) (r : FundingRecord) : Decidable (recordPasses fs r) := by
  unfold recordPasses; infer_instance

/-- The boolean-mask filter of `main` (lines 244-249). -/
def applyFilter (fs : FilterSpec) (rs : List FundingRecord) : List FundingRecord :=
  rs.filter (fun r => decide (recordPasses fs r))

/-! ### Monthly funding trend (`plot_funding_trend`, lines 125-126)

`pd.to_datetime(df['Month'], errors='coerce')` turns the `YYYY-MM` period
string back into a first-of-month timestamp — but pandas nanosecond
timestamps only exist between 1677-09-21 and 2262-04-11, so period strings
outside the months 1677-10 .. 2262-04 coerce to `NaT` and the subsequent
`groupby` silently drops those rows.  A timestamp is modelled by its linear
month index `12 * year + month`; `groupby` sorts its keys ascending. -/

/-- First month index representable as a pandas timestamp (1677-10). -/
def tsMinMonth : Nat := 12 * 1677 + 10

/-- Last month index representable as a pandas timestamp (2262-04). -/
def tsMaxMonth : Nat := 12 * 2262 + 4

/-- `pd.to_datetime` on a `YYYY-MM` period string with `errors='coerce'`:
the month index of the first-of-month timestamp, or `none` for `NaT`. -/
def toDatetimeMonth? (s : String) : Option Nat :=
  match s.data with
  | [y1, y2, y3, y4, '-', m1, m2] =>
    if [y1, y2, y3, y4].all Char.isDigit ∧ [m1, m2].all Char.isDigit then
      let y := digitsToNat [y1, y2, y3, y4]
      let m := digitsToNat [m1, m2]
      if 1 ≤ m ∧ m ≤ 12 ∧ tsMinMonth ≤ 12 * y + m ∧ 12 * y + m ≤ tsMaxMonth then
        some (12 * y + m)
      else none
    else none
  | _ => none

/-- Insert a month key into an ascending, duplicate-free key list. -/
def insertMonthKey (k : Nat) : List Nat → List Nat
  | [] => [k]
  | j :: js =>
    if k = j then j :: js
    else if k < j then k :: j :: js
    else j :: insertMonthKey k js

/-- The sorted group keys of `df.groupby('Month_dt')`: the distinct non-`NaT`
month values, ascending. -/
def monthKeys (rs : List FundingRecord) : List Nat :=
  rs.foldr (fun r acc =>
    match toDatetimeMonth? r.month with
    | some k => insertMonthKey k acc
    | none => acc) []

/-- Rendering of a month index back to its `YYYY-MM` period label. -/
def fmtMonthIdx (k : Nat) : String := fmtYM ((k - 1) / 12) ((k - 1) % 12 + 1)

/-- `df.groupby('Month_dt', as_index=False)['Amount'].sum()` (line 126):
per observed in-range period, the sum of `Amount`; keys ascending. -/
def monthlyFundingTotal (rs : List FundingRecord) : List (String × ℚ) :=
  (monthKeys rs).map (fun k =>
    (fmtMonthIdx k,
      ((rs.filter (fun r => toDatetimeMonth? r.month = some k)).map
        (fun r => r.amount)).sum))

/-! ### Top cities (`plot_top_cities`, lines 166-167)

`df['City'].value_counts().nlargest(10)`: count per city, order by count
descending.  Ties are broken deterministically by first-encounter order in
the input (a stable descending sort over the first-encounter count list). -/

/-- Increment the count of `c`, appending a new entry on first encounter. -/
def bumpCity : List (String × Nat) → String → List (String × Nat)
  | [], c => [(c, 1)]
  | (x, n) :: rest, c =>
    if x = c then (x, n + 1) :: rest else (x, n) :: bumpCity rest c

/-- Counts per city in first-encounter order (`value_counts` content). -/
def cityCounts (rs : List FundingRecord) : List (String × Nat) :=
  rs.foldl (fun acc r => bumpCity acc r.city) []

/-- Count-descending order on count entries. -/
abbrev countGE (a b : String × Nat) : Prop := b.2 ≤ a.2

instance : DecidableRel countGE := fun a b => Nat.decLe b.2 a.2

instance : IsTotal (String × Nat) countGE :=
  ⟨fun a b => Nat.le_total b.2 a.2⟩

instance : IsTrans (String × Nat) countGE :=
  ⟨fun _ _ _ h1 h2 => Nat.le_trans h2 h1⟩

/-- `value_counts().nlargest(n)`: the `n` largest counts, count-descending,
ties in first-encounter order. -/
def topCitiesByDealCount (rs : List FundingRecord) (n : Nat) : List (String × Nat) :=
  (List.insertionSort countGE (cityCounts rs)).take n

/-! ### Spec-side definitions

These follow the wording of the specification and are compared against the
definitions translated from the source. -/

/-- The spec's literal `DD/MM/YYYY` shape: exactly two day digits, a slash,
exactly two month digits, a slash, exactly four year digits. -/
def matchesDDMMYYYYexact (cs : List Char) : Bool :=
  match cs with
  | [d1, d2, s1, m1, m2, s2, y1, y2, y3, y4] =>
    d1.isDigit && d2.isDigit && s1 == '/' && m1.isDigit && m2.isDigit &&
      s2 == '/' && y1.isDigit && y2.isDigit && y3.isDigit && y4.isDigit
  | _ => false

/-- Declarative description of the strings `clean_date` accepts: a one- or
two-digit day field (value 1-31), a slash, a one- or two-digit month field
(value 1-12), a slash, exactly four year digits, together denoting a valid
calendar date between years 1 and 9999; the resulting date is read
day-first. -/
def strptimeAccepts (cs : List Char) (dt : Date) : Prop :=
  ∃ ds ms ys : List Char,
    cs = ds ++ '/' :: ms ++ '/' :: ys ∧
    ds.all Char.isDigit = true ∧ 1 ≤ ds.length ∧ ds.length ≤ 2 ∧
    ms.all Char.isDigit = true ∧ 1 ≤ ms.length ∧ ms.length ≤ 2 ∧
    ys.all Char.isDigit = true ∧ ys.length = 4 ∧
    dt.day = digitsToNat ds ∧ 1 ≤ dt.day ∧ dt.day ≤ 31 ∧
    dt.month = digitsToNat ms ∧ 1 ≤ dt.month ∧ dt.month ≤ 12 ∧
    dt.year = digitsToNat ys ∧
    validDateB dt.year dt.month dt.day = true

mutual

/-- Title casing as worded in the spec: the first letter of each word is
upper-cased and the rest of the word is lower-cased, a word being a maximal
run of alphabetic characters. -/
def specTitleWords : List Char → List Char
  | [] => []
  | c :: rest =>
    if c.isAlpha then c.toUpper :: specWordRest rest else c :: specTitleWords rest

/-- Inside a word: lower-case until the word ends. -/
def specWordRest : List Char → List Char
  | [] => []
  | c :: rest =>
    if c.isAlpha then c.toLower :: specWordRest rest else c :: specTitleWords rest

end

/-- The Categorical Normalizer as worded in the spec: trim surrounding
whitespace, title-case word by word, then map the post-title-case literals
`"Nan"` and `"N/A"` to `"Other"`. -/
def specNormalize (s : String) : String :=
  let t := String.mk (specTitleWords (stripChars s.data))
  if t = "Nan" ∨ t = "N/A" then "Other" else t

/-- Year component of a `YYYY-MM` period string (its first four digits). -/
def yearComponent (s : String) : Nat :=
  digitsToNat (s.data.take 4)

/-! ### Concrete test data

Raw 21-cell rows (the extractor reads positions 13, 14, 15, 17, 19, 20) and
the records the pipeline produces from them, used as concrete instances in
the theorems below. -/

/-- A well-formed raw row: date `04/01/2015`, amount `2000000`. -/
def goodRow : List String :=
  ["", "", "", "", "", "", "", "", "", "", "", "", "",
   "04/01/2015", "Acme", "Tech", "", "Pune", "", "Seed", "2000000"]

def goodRec : FundingRecord :=
  { date := ⟨2015, 1, 4⟩, startupName := "Acme", sector := "Tech",
    city := "Pune", investmentType := "Seed", amount := 2, year := 2015,
    month := "2015-01" }

/-- As `goodRow` but with an unparseable Date cell. -/
def badDateRow : List String :=
  ["", "", "", "", "", "", "", "", "", "", "", "", "",
   "January 4", "Acme", "Tech", "", "Pune", "", "Seed", "2000000"]

/-- As `goodRow` but with an unpadded Date cell. -/
def unpaddedDateRow : List String :=
  ["", "", "", "", "", "", "", "", "", "", "", "", "",
   "4/1/2015", "Acme", "Tech", "", "Pune", "", "Seed", "2000000"]

/-- As `goodRow` but with a token-bearing Amount cell. -/
def tokenAmountRow : List String :=
  ["", "", "", "", "", "", "", "", "", "", "", "", "",
   "04/01/2015", "Acme", "Tech", "", "Pune", "", "Seed", "10 cr"]

/-- As `goodRow` but with City cell `n/a`. -/
def naCityRow : List String :=
  ["", "", "", "", "", "", "", "", "", "", "", "", "",
   "04/01/2015", "Acme", "Tech", "", "n/a", "", "Seed", "2000000"]

def naCityRec : FundingRecord :=
  { date := ⟨2015, 1, 4⟩, startupName := "Acme", sector := "Tech",
    city := "Other", investmentType := "Seed", amount := 2, year := 2015,
    month := "2015-01" }

/-- As `goodRow` but dated 25/09/1677: the date itself is representable as a
pandas timestamp (it is after `Timestamp.min`, 1677-09-21 12:43), so the
load succeeds — but the first day of its month 1677-09 is not. -/
def row1677 : List String :=
  ["", "", "", "", "", "", "", "", "", "", "", "", "",
   "25/09/1677", "Acme", "Tech", "", "Pune", "", "Seed", "2000000"]

def rec1677 : FundingRecord :=
  { date := ⟨1677, 9, 25⟩, startupName := "Acme", sector := "Tech",
    city := "Pune", investmentType := "Seed", amount := 2, year := 1677,
    month := "1677-09" }

/-- A hand-built record with a given period and amount (aggregator input). -/
def periodRec (mo : String) (amt : ℚ) : FundingRecord :=
  { date := ⟨2015, 1, 4⟩, startupName := "A", sector := "T", city := "Pune",
    investmentType := "Seed", amount := amt, year := 2015, month := mo }

/-- The spec's monthly-total example: periods 2015-01 (amounts 1 and 2) and
2015-02 (amount 3). -/
def exMonthly : List FundingRecord :=
  [periodRec "2015-01" 1, periodRec "2015-01" 2, periodRec "2015-02" 3]

/-- A hand-built record in a given city (deal-count input). -/
def cityRec (c : String) : FundingRecord :=
  { date := ⟨2015, 1, 4⟩, startupName := "A", sector := "T", city := c,
    investmentType := "Seed", amount := 1, year := 2015, month := "2015-01" }

/-- The spec's top-cities example: Bangalore 5, Mumbai 5, Delhi 3. -/
def exCities : List FundingRecord :=
  List.replicate 5 (cityRec "Bangalore") ++ List.replicate 5 (cityRec "Mumbai")
    ++ List.replicate 3 (cityRec "Delhi")

/-! ### Shared helper lemmas -/

theorem mem_of_lookup_eq_some {α β : Type} [BEq α] [LawfulBEq α]
    {m : List (α × β)} {x : α} {t : β} (h : List.lookup x m = some t) :
    (x, t) ∈ m := by
  induction m with
  | nil => simp [List.lookup] at h
  | cons p rest ih =>
    obtain ⟨k, b⟩ := p
    rw [List.lookup] at h
    by_cases hk : x == k
    · rw [hk] at h
      obtain rfl := Option.some.inj h
      exact (eq_of_beq hk) ▸ List.mem_cons_self _ _
    · rw [Bool.not_eq_true] at hk
      rw [hk] at h
      exact List.mem_cons_of_mem _ (ih h)

/-- Applying the City alias table twice is the same as applying it once:
no alias target is itself an alias key. -/
theorem cityAlias_idem (x : String) :
    applyAlias cityAliases (applyAlias cityAliases x) = applyAlias cityAliases x := by
  unfold applyAlias
  cases h : List.lookup x cityAliases with
  | none => simp [h]
  | some t =>
    have hmem := mem_of_lookup_eq_some h
    have ht : t = "Bangalore" ∨ t = "Delhi" ∨ t = "Gurgaon" ∨ t = "Hyderabad" := by
      simp [cityAliases] at hmem
      rcases hmem with ⟨-, h⟩ | ⟨-, h⟩ | ⟨-, h⟩ | ⟨-, h⟩ <;> simp [h]
    rcases ht with rfl | rfl | rfl | rfl <;> rfl

/-- Applying the Investment Type alias table twice equals applying it once. -/
theorem investmentAlias_idem (x : String) :
    applyAlias investmentAliases (applyAlias investmentAliases x) =
      applyAlias investmentAliases x := by
  unfold applyAlias
  cases h : List.lookup x investmentAliases with
  | none => simp [h]
  | some t =>
    have hmem := mem_of_lookup_eq_some h
    have ht : t = "Seed/Angel Funding" := by
      simp [investmentAliases] at hmem
      exact hmem.2
    subst ht; rfl

/-- CPython title casing coincides with the word-by-word description. -/
theorem pyTitleAux_eq_spec (cs : List Char) :
    pyTitleAux cs false = specTitleWords cs ∧ pyTitleAux cs true = specWordRest cs := by
  induction cs with
  | nil => exact ⟨rfl, rfl⟩
  | cons c rest ih =>
    constructor <;> rw [pyTitleAux] <;> by_cases hc : c.isAlpha <;>
      simp [specTitleWords, specWordRest, hc, ih.1, ih.2]

theorem normalizeText_eq_specNormalize (s : String) :
    normalizeText s = specNormalize s := by
  unfold normalizeText specNormalize pyTitle
  rw [(pyTitleAux_eq_spec (stripChars s.data)).1]

/-- Inversion of a successful `cleanRow`: all the intermediate cell reads and
cleaning steps succeeded, the amount filters hold, and the record is built
from the cleaned parts. -/
theorem cleanRow_inv {row : List String} {r : FundingRecord}
    (h : cleanRow row = some r) :
    ∃ amtCell a dateCell d nameC secC cityC invC,
      row.get? 20 = some amtCell ∧ clean_amount amtCell = some a ∧ ¬a ≤ 0 ∧
      row.get? 13 = some dateCell ∧ clean_date dateCell = some d ∧
      row.get? 14 = some nameC ∧ row.get? 15 = some secC ∧
      row.get? 17 = some cityC ∧ row.get? 19 = some invC ∧ a < 1000 ∧
      r = { date := d, startupName := cleanStartupName nameC,
            sector := cleanSector secC, city := cleanCity cityC,
            investmentType := cleanInvestmentType invC,
            amount := a, year := d.year, month := periodString d } := by
  unfold cleanRow at h
  rw [Option.bind_eq_some] at h; obtain ⟨amtCell, h20, h⟩ := h
  rw [Option.bind_eq_some] at h; obtain ⟨a, hamt, h⟩ := h
  by_cases hle : a ≤ 0
  · rw [if_pos hle] at h; cases h
  · rw [if_neg hle] at h
    rw [Option.bind_eq_some] at h; obtain ⟨dateCell, h13, h⟩ := h
    rw [Option.bind_eq_some] at h; obtain ⟨d, hdate, h⟩ := h
    rw [Option.bind_eq_some] at h; obtain ⟨nameC, h14, h⟩ := h
    rw [Option.bind_eq_some] at h; obtain ⟨secC, h15, h⟩ := h
    rw [Option.bind_eq_some] at h; obtain ⟨cityC, h17, h⟩ := h
    rw [Option.bind_eq_some] at h; obtain ⟨invC, h19, h⟩ := h
    by_cases hlt : a < 1000
    · rw [if_pos hlt] at h
      exact ⟨amtCell, a, dateCell, d, nameC, secC, cityC, invC, h20, hamt, hle,
        h13, hdate, h14, h15, h17, h19, hlt, (Option.some.inj h).symm⟩
    · rw [if_neg hlt] at h; cases h

/-- Inversion of a successful `mkDMY`: the three field checks and the
calendar check hold. -/
theorem mkDMY_inv {ds ms ys : List Char} {dt : Date}
    (h : mkDMY ds ms ys = some dt) :
    ds.all Char.isDigit = true ∧ 1 ≤ ds.length ∧ ds.length ≤ 2 ∧
    ms.all Char.isDigit = true ∧ 1 ≤ ms.length ∧ ms.length ≤ 2 ∧
    ys.all Char.isDigit = true ∧ ys.length = 4 ∧
    dt.day = digitsToNat ds ∧ 1 ≤ dt.day ∧ dt.day ≤ 31 ∧
    dt.month = digitsToNat ms ∧ 1 ≤ dt.month ∧ dt.month ≤ 12 ∧
    dt.year = digitsToNat ys ∧
    validDateB dt.year dt.month dt.day = true := by
  unfold mkDMY at h
  split at h
  case h_2 => cases h
  case h_1 d m y hd hm hy =>
    unfold twoDigitField at hd hm
    unfold yearField at hy
    split at hd
    case isFalse => cases hd
    case isTrue hds =>
    split at hm
    case isFalse => cases hm
    case isTrue hms =>
    split at hy
    case isFalse => cases hy
    case isTrue hys =>
    obtain rfl := Option.some.inj hd
    obtain rfl := Option.some.inj hm
    obtain rfl := Option.some.inj hy
    split at h
    case isFalse => cases h
    case isTrue hv =>
      obtain rfl := (Option.some.inj h).symm
      exact ⟨hds.1, hds.2.1, hds.2.2.1, hms.1, hms.2.1, hms.2.2.1,
        hys.1, hys.2, rfl, hds.2.2.2.1, hds.2.2.2.2, rfl,
        hms.2.2.2.1, hms.2.2.2.2, rfl, hv⟩

/-- A successful `parseDMY` exhibits the declarative day-first decomposition
of its input. -/
theorem parseDMY_accepts {cs : List Char} {dt : Date}
    (h : parseDMY cs = some dt) : strptimeAccepts cs dt := by
  unfold parseDMY at h
  split at h
  case h_2 => cases h
  case h_1 r2 hdw =>
    split at h
    case h_2 => cases h
    case h_1 p3 hdw2 =>
      split at h
      case isTrue => cases h
      case isFalse hcont =>
        obtain ⟨hds, hds1, hds2, hms, hms1, hms2, hys, hys4, hday, hday1,
          hday31, hmon, hmon1, hmon12, hyr, hval⟩ := mkDMY_inv h
        refine ⟨cs.takeWhile (· ≠ '/'), r2.takeWhile (· ≠ '/'), p3, ?_,
          hds, hds1, hds2, hms, hms1, hms2, hys, hys4, hday, hday1, hday31,
          hmon, hmon1, hmon12, hyr, hval⟩
        have hr2 : r2 = r2.takeWhile (· ≠ '/') ++ '/' :: p3 := by
          conv_lhs => rw [← List.takeWhile_append_dropWhile (p := (· ≠ '/')) (l := r2)]
          rw [hdw2]
        conv_lhs => rw [← List.takeWhile_append_dropWhile (p := (· ≠ '/')) (l := cs)]
        rw [hdw]
        conv_lhs => rw [hr2]
        simp [List.append_assoc]

/-- The date of every record produced by `clean_date` is a valid calendar
date in the `datetime` range. -/
theorem clean_date_valid {s : String} {dt : Date}
    (h : clean_date s = some dt) : validDateB dt.year dt.month dt.day = true := by
  obtain ⟨_, _, _, _, _, _, _, _, _, _, _, _, _, _, _, _, _, _, _, hv⟩ :=
    parseDMY_accepts h
  exact hv

/-- The date of every record produced by `clean_date` satisfies the full
calendar validity predicate: year 1-9999, month 1-12, day in range. -/
theorem clean_date_isValid {s : String} {dt : Date}
    (h : clean_date s = some dt) : isValidDate dt = true := by
  obtain ⟨_, _, _, _, _, _, _, _, _, _, _, _, _, hd1, _, _, hm1, hm12, _, hv⟩ :=
    parseDMY_accepts h
  unfold validDateB at hv
  simp only [Bool.and_eq_true, decide_eq_true_eq] at hv
  unfold isValidDate
  simp only [Bool.and_eq_true, decide_eq_true_eq]
  omega

/-- Successful loads are element-wise images of `cleanRow`. -/
theorem mem_loadAndClean {rows : List (List String)} {recs : List FundingRecord}
    {r : FundingRecord} (h : loadAndCleanRecords rows = .ok recs)
    (hr : r ∈ recs) : ∃ row ∈ rows, cleanRow row = some r := by
  unfold loadAndCleanRecords at h
  split at h
  · split at h
    · cases h
    · obtain rfl := Except.ok.inj h
      exact List.mem_filterMap.mp hr
  · cases h

theorem digitChar_toNat {d : Nat} (h : d < 10) :
    (digitChar d).toNat = 48 + d := by
  interval_cases d <;> rfl

/-- Reading the first four characters of `fmtYM y m` recovers `y`. -/
theorem yearComponent_fmtYM {y : Nat} (m : Nat) (hy : y ≤ 9999) :
    yearComponent (fmtYM y m) = y := by
  have hdata : (fmtYM y m).data = pad4 y ++ '-' :: pad2 m := rfl
  unfold yearComponent
  rw [hdata]
  unfold pad4
  rw [List.cons_append, List.cons_append, List.cons_append, List.cons_append,
    List.nil_append]
  simp only [List.take_succ_cons, List.take_zero]
  unfold digitsToNat
  simp only [List.foldl_cons, List.foldl_nil]
  rw [digitChar_toNat (by omega), digitChar_toNat (by omega),
    digitChar_toNat (by omega), digitChar_toNat (by omega)]
  omega

/-! ### Evaluation of the pipeline on the concrete rows -/

theorem clean_amount_2000000 : clean_amount "2000000" = some 2 := by
  have h1 : containsToken (processAmount "2000000".data) = false := by decide
  have h2 : pyFloat? (processAmount "2000000".data) = some 2000000 := by decide
  unfold clean_amount
  simp only [h1, h2, Bool.false_eq_true, if_false, Option.map_some]
  norm_num

theorem cleanRow_goodRow : cleanRow goodRow = some goodRec := by
  have ha := clean_amount_2000000
  have hd : clean_date "04/01/2015" = some ⟨2015, 1, 4⟩ := by decide
  simp only [cleanRow, show goodRow.get? 20 = some "2000000" from rfl,
    show goodRow.get? 13 = some "04/01/2015" from rfl,
    show goodRow.get? 14 = some "Acme" from rfl,
    show goodRow.get? 15 = some "Tech" from rfl,
    show goodRow.get? 17 = some "Pune" from rfl,
    show goodRow.get? 19 = some "Seed" from rfl,
    ha, hd, Option.some_bind]
  rw [if_neg (by norm_num : ¬(2 : ℚ) ≤ 0), if_pos (by norm_num : (2 : ℚ) < 1000)]
  rfl

theorem load_goodRow : loadAndCleanRecords [goodRow] = .ok [goodRec] := by
  have hbrk : breaksDatetimeDtype goodRow = false := by decide
  have hany : [goodRow].any
      (fun row => amountSurvives row && breaksDatetimeDtype row) = false := by
    simp [List.any_cons, List.any_nil, hbrk]
  unfold loadAndCleanRecords
  rw [if_pos (by decide), hany]
  simp [List.filterMap_cons, cleanRow_goodRow]

theorem cleanRow_naCityRow : cleanRow naCityRow = some naCityRec := by
  have ha := clean_amount_2000000
  have hd : clean_date "04/01/2015" = some ⟨2015, 1, 4⟩ := by decide
  simp only [cleanRow, show naCityRow.get? 20 = some "2000000" from rfl,
    show naCityRow.get? 13 = some "04/01/2015" from rfl,
    show naCityRow.get? 14 = some "Acme" from rfl,
    show naCityRow.get? 15 = some "Tech" from rfl,
    show naCityRow.get? 17 = some "n/a" from rfl,
    show naCityRow.get? 19 = some "Seed" from rfl,
    ha, hd, Option.some_bind]
  rw [if_neg (by norm_num : ¬(2 : ℚ) ≤ 0), if_pos (by norm_num : (2 : ℚ) < 1000)]
  rfl

theorem load_naCityRow : loadAndCleanRecords [naCityRow] = .ok [naCityRec] := by
  have hbrk : breaksDatetimeDtype naCityRow = false := by decide
  have hany : [naCityRow].any
      (fun row => amountSurvives row && breaksDatetimeDtype row) = false := by
    simp [List.any_cons, List.any_nil, hbrk]
  unfold loadAndCleanRecords
  rw [if_pos (by decide), hany]
  simp [List.filterMap_cons, cleanRow_naCityRow]

theorem cleanRow_row1677 : cleanRow row1677 = some rec1677 := by
  have ha := clean_amount_2000000
  have hd : clean_date "25/09/1677" = some ⟨1677, 9, 25⟩ := by decide
  simp only [cleanRow, show row1677.get? 20 = some "2000000" from rfl,
    show row1677.get? 13 = some "25/09/1677" from rfl,
    show row1677.get? 14 = some "Acme" from rfl,
    show row1677.get? 15 = some "Tech" from rfl,
    show row1677.get? 17 = some "Pune" from rfl,
    show row1677.get? 19 = some "Seed" from rfl,
    ha, hd, Option.some_bind]
  rw [if_neg (by norm_num : ¬(2 : ℚ) ≤ 0), if_pos (by norm_num : (2 : ℚ) < 1000)]
  rfl

theorem load_row1677 : loadAndCleanRecords [row1677] = .ok [rec1677] := by
  have hbrk : breaksDatetimeDtype row1677 = false := by decide
  have hany : [row1677].any
      (fun row => amountSurvives row && breaksDatetimeDtype row) = false := by
    simp [List.any_cons, List.any_nil, hbrk]
  unfold loadAndCleanRecords
  rw [if_pos (by decide), hany]
  simp [List.filterMap_cons, cleanRow_row1677]

theorem cleanRow_unpaddedDateRow : cleanRow unpaddedDateRow = some goodRec := by
  have ha := clean_amount_2000000
  have hd : clean_date "4/1/2015" = some ⟨2015, 1, 4⟩ := by decide
  simp only [cleanRow, show unpaddedDateRow.get? 20 = some "2000000" from rfl,
    show unpaddedDateRow.get? 13 = some "4/1/2015" from rfl,
    show unpaddedDateRow.get? 14 = some "Acme" from rfl,
    show unpaddedDateRow.get? 15 = some "Tech" from rfl,
    show unpaddedDateRow.get? 17 = some "Pune" from rfl,
    show unpaddedDateRow.get? 19 = some "Seed" from rfl,
    ha, hd, Option.some_bind]
  rw [if_neg (by norm_num : ¬(2 : ℚ) ≤ 0), if_pos (by norm_num : (2 : ℚ) < 1000)]
  rfl

theorem load_unpaddedDateRow :
    loadAndCleanRecords [unpaddedDateRow] = .ok [goodRec] := by
  have hbrk : breaksDatetimeDtype unpaddedDateRow = false := by decide
  have hany : [unpaddedDateRow].any
      (fun row => amountSurvives row && breaksDatetimeDtype row) = false := by
    simp [List.any_cons, List.any_nil, hbrk]
  unfold loadAndCleanRecords
  rw [if_pos (by decide), hany]
  simp [List.filterMap_cons, cleanRow_unpaddedDateRow]

theorem cleanRow_badDateRow : cleanRow badDateRow = none := by
  have ha := clean_amount_2000000
  have hd : clean_date "January 4" = none := by decide
  simp only [cleanRow, show badDateRow.get? 20 = some "2000000" from rfl,
    show badDateRow.get? 13 = some "January 4" from rfl,
    ha, hd, Option.some_bind]
  rw [if_neg (by norm_num : ¬(2 : ℚ) ≤ 0)]
  rfl

/-! ### The claims -/

/-- C5: applying `applyFilter` with a `FilterSpec` whose year range spans the
observed years, whose city set contains every observed city, and whose
amount range spans the observed amounts returns the record set unchanged. -/
theorem c5_identity_filter (fs : FilterSpec) (rs : List FundingRecord)
    (h : ∀ r ∈ rs, recordPasses fs r) : applyFilter fs rs = rs := by
  unfold applyFilter
  rw [List.filter_eq_self]
  intro r hr
  exact decide_eq_true (h r hr)

theorem c5_witness :
    applyFilter ⟨2015, 2015, ["Pune"], 0, 2⟩ [goodRec] = [goodRec] :=
  c5_identity_filter _ _ (by
    intro r hr
    rw [List.mem_singleton] at hr
    subst hr
    exact ⟨by decide, by decide, by decide,
      show (0 : ℚ) ≤ 2 by norm_num, show (2 : ℚ) ≤ 2 by norm_num⟩)

/-- C7: `topCitiesByDealCount` returns at most `n` cities, ordered by deal
count descending with a deterministic (stable, first-encounter) tie-break;
with `n = 2` over counts Bangalore 5, Mumbai 5, Delhi 3 it returns exactly
two entries, Bangalore and Mumbai, and Delhi is excluded. -/
theorem c7_top_cities (rs : List FundingRecord) (n : Nat) :
    (topCitiesByDealCount rs n).length ≤ n ∧
    List.Sorted countGE (topCitiesByDealCount rs n) ∧
    (topCitiesByDealCount exCities 2).length = 2 ∧
    "Bangalore" ∈ (topCitiesByDealCount exCities 2).map Prod.fst ∧
    "Mumbai" ∈ (topCitiesByDealCount exCities 2).map Prod.fst ∧
    "Delhi" ∉ (topCitiesByDealCount exCities 2).map Prod.fst := by
  refine ⟨?_, ?_, by decide, by decide, by decide, by decide⟩
  · unfold topCitiesByDealCount
    rw [List.length_take]
    exact Nat.min_le_left _ _
  · exact List.Pairwise.sublist (List.take_sublist n _)
      (List.sorted_insertionSort countGE (cityCounts rs))

/-- C8: each of the four text fields is trimmed, title-cased word by word,
and has post-title-case `"Nan"`/`"N/A"` mapped to `"Other"`; the alias maps
are applied exactly once, by exact match, to City and Investment Type only
(applying them again changes nothing), and Sector and Startup Name receive
no alias mapping. -/
theorem c8_normalizer_spec (s : String) :
    cleanSector s = specNormalize s ∧
    cleanStartupName s = specNormalize s ∧
    cleanCity s = applyAlias cityAliases (specNormalize s) ∧
    cleanInvestmentType s = applyAlias investmentAliases (specNormalize s) ∧
    applyAlias cityAliases (applyAlias cityAliases (specNormalize s)) =
      applyAlias cityAliases (specNormalize s) ∧
    applyAlias investmentAliases
        (applyAlias investmentAliases (specNormalize s)) =
      applyAlias investmentAliases (specNormalize s) := by
  refine ⟨normalizeText_eq_specNormalize s, normalizeText_eq_specNormalize s,
    ?_, ?_, cityAlias_idem _, investmentAlias_idem _⟩
  · unfold cleanCity
    rw [normalizeText_eq_specNormalize]
  · unfold cleanInvestmentType
    rw [normalizeText_eq_specNormalize]

/-- C9: when any row lacks the required 21 columns, the whole load fails
with `SchemaMismatch` and no partial dataset is returned. -/
theorem c9_schema_mismatch (rows : List (List String))
    (h : ∃ row ∈ rows, row.length < 21) :
    loadAndCleanRecords rows = .error .schemaMismatch ∧
    ∀ recs, loadAndCleanRecords rows ≠ .ok recs := by
  have hall : rows.all (fun r => 20 < r.length) = false := by
    obtain ⟨row, hmem, hlen⟩ := h
    cases hb : rows.all (fun r => 20 < r.length)
    · rfl
    · rw [List.all_eq_true] at hb
      have := hb row hmem
      simp only [decide_eq_true_eq] at this
      omega
  unfold loadAndCleanRecords
  rw [hall]
  exact ⟨rfl, fun recs hc => Except.noConfusion
    (show Except.error LoadError.schemaMismatch = Except.ok recs from hc)⟩

theorem c9_witness :
    loadAndCleanRecords [goodRow, []] = .error .schemaMismatch :=
  (c9_schema_mismatch _ ⟨[], by decide, by decide⟩).1

/-- C10: for every cleaned record, the derived `Year` equals the year
component of the derived `YYYY-MM` period string, both being computed from
the same parsed date. -/
theorem c10_year_month_consistent (rows : List (List String))
    (recs : List FundingRecord) (r : FundingRecord)
    (h : loadAndCleanRecords rows = .ok recs) (hr : r ∈ recs) :
    yearComponent r.month = r.year ∧ r.year = r.date.year := by
  obtain ⟨row, -, hcr⟩ := mem_loadAndClean h hr
  obtain ⟨_, a, _, d, _, _, _, _, _, _, _, _, hdate, _, _, _, _, _, rfl⟩ :=
    cleanRow_inv hcr
  constructor
  · have hv := clean_date_valid hdate
    have hy : d.year ≤ 9999 := by
      unfold validDateB at hv
      simp only [Bool.and_eq_true, decide_eq_true_eq] at hv
      exact hv.1.2
    exact yearComponent_fmtYM d.month hy
  · rfl

theorem c10_witness :
    yearComponent goodRec.month = goodRec.year ∧
      goodRec.year = goodRec.date.year :=
  c10_year_month_consistent [goodRow] [goodRec] goodRec load_goodRow
    (List.mem_singleton.mpr rfl)

/-! ### Infix preservation through the amount preprocessing (for C3) -/

theorem filter_keeps_token {t l : List Char} {p : Char → Bool}
    (h : t <:+: l) (ht : ∀ c ∈ t, p c = true) : t <:+: l.filter p := by
  obtain ⟨u, v, rfl⟩ := h
  rw [List.filter_append, List.filter_append, List.filter_eq_self.mpr ht]
  exact ⟨_, _, rfl⟩

theorem dropWhile_keeps_token {t l : List Char} {p : Char → Bool}
    (h : t <:+: l) (hne : t ≠ []) (ht : ∀ c ∈ t, p c = false) :
    t <:+: l.dropWhile p := by
  obtain ⟨u, v, rfl⟩ := h
  induction u with
  | nil =>
    cases t with
    | nil => exact absurd rfl hne
    | cons c t' =>
      rw [List.nil_append, List.cons_append, List.dropWhile_cons,
        ht c (List.mem_cons_self c t')]
      simp only [Bool.false_eq_true, if_false]
      exact ⟨[], v, rfl⟩
  | cons x u' ih =>
    rw [List.cons_append, List.cons_append, List.dropWhile_cons]
    cases hpx : p x
    · simp only [Bool.false_eq_true, if_false]
      exact ⟨x :: u', v, rfl⟩
    · simp only [if_true]
      exact ih

theorem reverse_keeps_token {t l : List Char} (h : t <:+: l) :
    t.reverse <:+: l.reverse := by
  obtain ⟨u, v, rfl⟩ := h
  exact ⟨v.reverse, u.reverse, by simp⟩

theorem strip_keeps_token {t l : List Char}
    (h : t <:+: l) (hne : t ≠ []) (ht : ∀ c ∈ t, pySpace c = false) :
    t <:+: stripChars l := by
  unfold stripChars
  have h1 : t <:+: l.dropWhile pySpace := dropWhile_keeps_token h hne ht
  have h2 : t.reverse <:+: (l.dropWhile pySpace).reverse :=
    reverse_keeps_token h1
  have h3 : t.reverse <:+: (l.dropWhile pySpace).reverse.dropWhile pySpace :=
    dropWhile_keeps_token h2 (by simpa using hne)
      (fun c hc => ht c (List.mem_reverse.mp hc))
  have h4 := reverse_keeps_token h3
  simpa using h4

/-- A token occurrence in the lower-cased cell survives the comma/dollar
removal, the strip, and the final lower-casing of `clean_amount`'s
preprocessing. -/
theorem token_infix_processAmount {tok cs : List Char}
    (h : tok <:+: lowerChars cs) (hne : tok ≠ [])
    (hcomma : ',' ∉ tok) (hdollar : '$' ∉ tok)
    (hsp : ∀ c ∈ tok, pySpace c = false) :
    tok <:+: processAmount cs := by
  obtain ⟨u, v, huv⟩ := h
  have h' : List.map Char.toLower cs = (u ++ tok) ++ v := huv.symm
  obtain ⟨l12, lv, rfl, h12, hv⟩ := List.map_eq_append_iff.mp h'
  obtain ⟨lu, lt, rfl, hu, htok⟩ := List.map_eq_append_iff.mp h12
  have hlt_ne : lt ≠ [] := by
    intro h0
    rw [h0] at htok
    exact hne (htok.symm.trans (List.map_nil))
  have hmem : ∀ c ∈ lt, Char.toLower c ∈ tok := by
    intro c hc
    rw [← htok]
    exact List.mem_map_of_mem _ hc
  have hlow_comma : Char.toLower ',' = ',' := by decide
  have hlow_dollar : Char.toLower '$' = '$' := by decide
  have hlt_comma : ∀ c ∈ lt, (fun c => decide (c ≠ ',')) c = true := by
    intro c hc
    refine decide_eq_true ?_
    rintro rfl
    have hin := hmem ',' hc
    rw [hlow_comma] at hin
    exact hcomma hin
  have hlt_dollar' : ∀ c ∈ lt, (fun c => decide (c ≠ '$')) c = true := by
    intro c hc
    refine decide_eq_true ?_
    rintro rfl
    have hin := hmem '$' hc
    rw [hlow_dollar] at hin
    exact hdollar hin
  have hlt_sp : ∀ c ∈ lt, pySpace c = false := by
    intro c hc
    cases hpc : pySpace c
    · rfl
    · exfalso
      have hcs : c = ' ' ∨ c = '\t' ∨ c = '\n' ∨ c = '\r' ∨
          c = '\x0b' ∨ c = '\x0c' := by
        unfold pySpace at hpc
        simp only [Bool.or_eq_true, beq_iff_eq] at hpc
        tauto
      have hfix : Char.toLower c = c := by
        rcases hcs with rfl | rfl | rfl | rfl | rfl | rfl <;> decide
      have hin := hmem c hc
      rw [hfix] at hin
      rw [hsp c hin] at hpc
      cases hpc
  have hinf0 : lt <:+: (lu ++ lt) ++ lv := ⟨lu, lv, rfl⟩
  have step1 := filter_keeps_token hinf0 hlt_comma
  have step2 := filter_keeps_token step1 hlt_dollar'
  have step3 := strip_keeps_token step2 hlt_ne hlt_sp
  have step4 := List.IsInfix.map Char.toLower step3
  rw [htok] at step4
  exact step4

/-- A token-bearing Amount cell is rejected by `clean_amount`. -/
theorem clean_amount_none_of_token {s tok : String}
    (htk : tok ∈ amountTokens) (h : tok.data <:+: lowerChars s.data) :
    clean_amount s = none := by
  have hne : tok.data ≠ [] := by fin_cases htk <;> decide
  have hcomma : ',' ∉ tok.data := by fin_cases htk <;> decide
  have hdollar : '$' ∉ tok.data := by fin_cases htk <;> decide
  have hsp : ∀ c ∈ tok.data, pySpace c = false := by fin_cases htk <;> decide
  have hx := token_infix_processAmount h hne hcomma hdollar hsp
  have hct : containsToken (processAmount s.data) = true := by
    unfold containsToken
    rw [List.any_eq_true]
    exact ⟨tok, htk, decide_eq_true hx⟩
  unfold clean_amount
  simp only [hct, if_true]

/-- C3: an Amount cell containing one of the tokens `lac`, `lakh`, `cr`,
`unknown`, `n/a` — case-insensitively, as a substring anywhere in the cell —
makes the row's record be dropped, regardless of any numeric prefix: the
row cleans to nothing, and a load containing such a row yields exactly the
records of the other rows. -/
theorem c3_token_rejection (row : List String) (cell : String)
    (h20 : row.get? 20 = some cell)
    (h : ∃ tok ∈ amountTokens, tok.data <:+: lowerChars cell.data) :
    cleanRow row = none ∧
    ∀ pre post : List (List String), ∀ recs,
      loadAndCleanRecords (pre ++ row :: post) = .ok recs →
      recs = pre.filterMap cleanRow ++ post.filterMap cleanRow := by
  obtain ⟨tok, htk, hinf⟩ := h
  have hnone : cleanRow row = none := by
    unfold cleanRow
    rw [h20, Option.some_bind, clean_amount_none_of_token htk hinf]
    rfl
  refine ⟨hnone, fun pre post recs hok => ?_⟩
  unfold loadAndCleanRecords at hok
  split at hok
  · split at hok
    · cases hok
    · rw [← Except.ok.inj hok]
      simp [List.filterMap_append, List.filterMap_cons, hnone]
  · cases hok

theorem c3_witness : cleanRow tokenAmountRow = none :=
  (c3_token_rejection tokenAmountRow "10 cr" rfl ⟨"cr", by decide, by decide⟩).1

/-! ### C1 and C2 -/

/-- C1 counterexample: the Amount cell `"2000000"` is a plain numeric string
whose converted value 2 lies strictly between 0 and 1000, yet the row is
absent from the cleaned dataset because its Date cell does not parse — the
claimed "if and only if" fails right to left. -/
theorem c1_counterexample :
    containsToken (processAmount "2000000".data) = false ∧
    pyFloat? (processAmount "2000000".data) = some 2000000 ∧
    (0 : ℚ) < 2000000 / 1000000 ∧ (2000000 : ℚ) / 1000000 < 1000 ∧
    loadAndCleanRecords [badDateRow] = .ok [] := by
  refine ⟨by decide, by decide, by norm_num, by norm_num, ?_⟩
  have hbrk : breaksDatetimeDtype badDateRow = false := by decide
  have hany : [badDateRow].any
      (fun row => amountSurvives row && breaksDatetimeDtype row) = false := by
    simp [List.any_cons, List.any_nil, hbrk]
  unfold loadAndCleanRecords
  rw [if_pos (by decide), hany]
  simp [List.filterMap_cons, cleanRow_badDateRow]

/-- C1 (amended): for a row whose Amount cell is a plain numeric string with
parsed value `v`, any produced record has `amount = v / 1000000`, and the
record appears in the cleaned dataset iff `0 < v / 1000000 < 1000` AND the
row's Date cell parses day-first to a calendar date representable as a
pandas timestamp.  When the amount is positive and the date parses but lies
outside the timestamp bounds, no record appears either — the whole load
instead fails (the `AttributeError` crash of `.dt.year` at line 79) — so a
plain numeric amount in the window never suffices by itself. -/
theorem c1_amended (row : List String) (amtCell dateCell : String) (v : ℚ)
    (h20 : row.get? 20 = some amtCell) (h13 : row.get? 13 = some dateCell)
    (h14 : (row.get? 14).isSome = true) (h15 : (row.get? 15).isSome = true)
    (h17 : (row.get? 17).isSome = true) (h19 : (row.get? 19).isSome = true)
    (hnt : containsToken (processAmount amtCell.data) = false)
    (hv : pyFloat? (processAmount amtCell.data) = some v) :
    (∀ r : FundingRecord, cleanRow row = some r → r.amount = v / 1000000) ∧
    ((∃ r, loadAndCleanRecords [row] = .ok [r]) ↔
      (0 < v / 1000000 ∧ v / 1000000 < 1000 ∧
        ∃ d, clean_date dateCell = some d ∧ tsRepresentable d = true)) ∧
    (∀ d, clean_date dateCell = some d → tsRepresentable d = false →
      0 < v / 1000000 →
      loadAndCleanRecords [row] = .error .dtypeError) := by
  have hamt : clean_amount amtCell = some (v / 1000000) := by
    unfold clean_amount
    simp only [hnt, Bool.false_eq_true, if_false, hv]
    rfl
  have hlen : 20 < row.length := by
    by_contra hle2
    rw [List.get?_eq_none.mpr (by omega)] at h20
    cases h20
  have hschema : [row].all (fun r => 20 < r.length) = true := by
    simp [List.all_cons, List.all_nil, hlen]
  have hsurv : amountSurvives row = decide (0 < v / 1000000) := by
    simp only [amountSurvives, h20, hamt]
  have hdt : rowDate? row = clean_date dateCell := by
    simp only [rowDate?, h13, Option.some_bind]
  refine ⟨?_, ?_, ?_⟩
  · intro r hr
    obtain ⟨ac, a, dc, d, _, _, _, _, h20', hamt', _, _, _, _, _, _, _, _, rfl⟩ :=
      cleanRow_inv hr
    rw [h20] at h20'
    obtain rfl := Option.some.inj h20'
    rw [hamt] at hamt'
    exact (Option.some.inj hamt').symm
  · obtain ⟨nameC, h14'⟩ := Option.isSome_iff_exists.mp h14
    obtain ⟨secC, h15'⟩ := Option.isSome_iff_exists.mp h15
    obtain ⟨cityC, h17'⟩ := Option.isSome_iff_exists.mp h17
    obtain ⟨invC, h19'⟩ := Option.isSome_iff_exists.mp h19
    constructor
    · rintro ⟨r, hr⟩
      unfold loadAndCleanRecords at hr
      rw [if_pos hschema] at hr
      split at hr
      · cases hr
      case isFalse hany =>
        have hcr : cleanRow row = some r := by
          have heq := Except.ok.inj hr
          cases hc : cleanRow row with
          | none =>
            simp only [List.filterMap_cons, List.filterMap_nil, hc] at heq
            cases heq
          | some rx =>
            simp only [List.filterMap_cons, List.filterMap_nil, hc] at heq
            obtain rfl : rx = r := by injection heq
            rfl
        obtain ⟨ac, a, dc, d, _, _, _, _, h20', hamt', hle, h13', hdate, _, _,
          _, _, hlt, rfl⟩ := cleanRow_inv hcr
        rw [h20] at h20'
        obtain rfl := Option.some.inj h20'
        rw [hamt] at hamt'
        obtain rfl := Option.some.inj hamt'
        rw [h13] at h13'
        obtain rfl := Option.some.inj h13'
        refine ⟨not_le.mp hle, hlt, d, hdate, ?_⟩
        cases hb : tsRepresentable d
        · exact absurd (by
            simp only [List.any_cons, List.any_nil, Bool.or_false]
            rw [hsurv]
            have hbrk : breaksDatetimeDtype row = true := by
              simp only [breaksDatetimeDtype, hdt, hdate, hb]
              rfl
            rw [hbrk, Bool.and_true]
            exact decide_eq_true (not_le.mp hle)) hany
        · rfl
    · rintro ⟨hpos, hlt, d, hd, hts⟩
      have hbrk : breaksDatetimeDtype row = false := by
        simp only [breaksDatetimeDtype, hdt, hd, hts]
        rfl
      have hany : [row].any
          (fun row => amountSurvives row && breaksDatetimeDtype row) = false := by
        simp [List.any_cons, List.any_nil, hbrk]
      have hcr : cleanRow row = some ⟨d, cleanStartupName nameC,
          cleanSector secC, cleanCity cityC, cleanInvestmentType invC,
          v / 1000000, d.year, periodString d⟩ := by
        unfold cleanRow
        rw [h20, Option.some_bind, hamt, Option.some_bind,
          if_neg (not_le.mpr hpos), h13, Option.some_bind, hd, Option.some_bind,
          h14', Option.some_bind, h15', Option.some_bind, h17', Option.some_bind,
          h19', Option.some_bind, if_pos hlt]
      refine ⟨⟨d, cleanStartupName nameC, cleanSector secC, cleanCity cityC,
        cleanInvestmentType invC, v / 1000000, d.year, periodString d⟩, ?_⟩
      unfold loadAndCleanRecords
      rw [if_pos hschema, hany]
      simp [List.filterMap_cons, List.filterMap_nil, hcr]
  · intro d hd hts hpos
    have hbrk : breaksDatetimeDtype row = true := by
      simp only [breaksDatetimeDtype, hdt, hd, hts]
      rfl
    have hany : [row].any
        (fun row => amountSurvives row && breaksDatetimeDtype row) = true := by
      simp only [List.any_cons, List.any_nil, Bool.or_false]
      rw [hsurv, hbrk, Bool.and_true]
      exact decide_eq_true hpos
    unfold loadAndCleanRecords
    rw [if_pos hschema, hany]
    rfl

theorem c1_witness : goodRec.amount = 2000000 / 1000000 :=
  (c1_amended goodRow "2000000" "04/01/2015" 2000000 rfl rfl rfl rfl rfl rfl
    (by decide) (by decide)).1 goodRec cleanRow_goodRow

/-- C2 counterexample: the cell `"4/1/2015"` does not match `DD/MM/YYYY`
exactly (day and month are unpadded), yet `clean_date` accepts it and the
row stays in the cleaned dataset — the claimed "every non-matching cell is
dropped" fails. -/
theorem c2_counterexample :
    matchesDDMMYYYYexact "4/1/2015".data = false ∧
    clean_date "4/1/2015" = some ⟨2015, 1, 4⟩ ∧
    loadAndCleanRecords [unpaddedDateRow] = .ok [goodRec] :=
  ⟨by decide, by decide, load_unpaddedDateRow⟩

/-- C2 (amended): every Date cell accepted by `clean_date` matches, after
stripping, the day-first pattern D(D)/M(M)/YYYY — a one- or two-digit day
(1-31), slash, a one- or two-digit month (1-12), slash, exactly four year
digits — and denotes a valid calendar date; every other cell is rejected
(hence dropped).  Zero padding of day and month is optional.  The cell
`"04/01/2015"` parses day-first to January 4, 2015. -/
theorem c2_amended :
    (∀ (s : String) (dt : Date), clean_date s = some dt →
      strptimeAccepts (stripChars s.data) dt) ∧
    clean_date "04/01/2015" = some ⟨2015, 1, 4⟩ :=
  ⟨fun _ _ h => parseDMY_accepts h, by decide⟩

theorem c2_witness :
    strptimeAccepts (stripChars "04/01/2015".data) ⟨2015, 1, 4⟩ :=
  c2_amended.1 "04/01/2015" ⟨2015, 1, 4⟩ (by decide)

/-! ### C4 -/

/-- C4 counterexample: a row whose City cell is `"n/a"` survives cleaning
with city `"Other"`, which is neither the title-cased source text (`"N/A"`)
nor the target of any alias rule — the claimed "alias target where a rule
applies, title-cased source text otherwise" fails. -/
theorem c4_counterexample :
    loadAndCleanRecords [naCityRow] = .ok [naCityRec] ∧
    naCityRec.city = "Other" ∧
    String.mk (pyTitle (stripChars "n/a".data)) = "N/A" ∧
    List.lookup "N/A" cityAliases = none ∧
    ("Other" : String) ≠ "N/A" :=
  ⟨load_naCityRow, rfl, by decide, by decide, by decide⟩

/-- C4 (amended): every cleaned record has `0 < amountMillionsUsd < 1000`
and a fully valid calendar date (year 1-9999, month 1-12, day 1 up to the
length of that month), and its city and investment type are images of some
source cell under the full normaliser — trim, title-case, post-title
`"Nan"`/`"N/A"` mapped to `"Other"`, then the alias table applied once (the
canonical alias target where a rule applies, the normalised text
otherwise). -/
theorem c4_amended (rows : List (List String)) (recs : List FundingRecord)
    (r : FundingRecord) (h : loadAndCleanRecords rows = .ok recs)
    (hr : r ∈ recs) :
    0 < r.amount ∧ r.amount < 1000 ∧
    isValidDate r.date = true ∧
    (∃ s, r.city = cleanCity s) ∧
    (∃ s, r.investmentType = cleanInvestmentType s) := by
  obtain ⟨row, -, hcr⟩ := mem_loadAndClean h hr
  obtain ⟨_, a, _, d, _, _, cityC, invC, _, _, hle, _, hdate, _, _, _, _,
    hlt, rfl⟩ := cleanRow_inv hcr
  exact ⟨not_le.mp hle, hlt, clean_date_isValid hdate, ⟨cityC, rfl⟩, ⟨invC, rfl⟩⟩

theorem c4_witness :
    0 < goodRec.amount ∧ goodRec.amount < 1000 ∧
    isValidDate goodRec.date = true ∧
    (∃ s, goodRec.city = cleanCity s) ∧
    (∃ s, goodRec.investmentType = cleanInvestmentType s) :=
  c4_amended [goodRow] [goodRec] goodRec load_goodRow
    (List.mem_singleton.mpr rfl)

/-! ### C6 -/

theorem mem_insertMonthKey {k j : Nat} {l : List Nat} :
    j ∈ insertMonthKey k l ↔ j = k ∨ j ∈ l := by
  induction l with
  | nil => simp [insertMonthKey]
  | cons x xs ih =>
    unfold insertMonthKey
    by_cases h1 : k = x
    · subst h1
      rw [if_pos rfl]
      simp only [List.mem_cons]
      tauto
    · rw [if_neg h1]
      by_cases h2 : k < x
      · rw [if_pos h2]
        simp only [List.mem_cons]
      · rw [if_neg h2]
        simp only [List.mem_cons, ih]
        tauto

theorem sorted_insertMonthKey {k : Nat} {l : List Nat}
    (h : List.Sorted (· < ·) l) :
    List.Sorted (· < ·) (insertMonthKey k l) := by
  induction l with
  | nil =>
    unfold insertMonthKey
    exact List.sorted_singleton k
  | cons x xs ih =>
    rw [List.sorted_cons] at h
    obtain ⟨hx, hxs⟩ := h
    unfold insertMonthKey
    by_cases h1 : k = x
    · rw [if_pos h1]
      exact List.sorted_cons.mpr ⟨hx, hxs⟩
    · rw [if_neg h1]
      by_cases h2 : k < x
      · rw [if_pos h2]
        refine List.sorted_cons.mpr ⟨?_, List.sorted_cons.mpr ⟨hx, hxs⟩⟩
        intro b hb
        rcases List.mem_cons.mp hb with rfl | hb'
        · exact h2
        · exact lt_trans h2 (hx b hb')
      · rw [if_neg h2]
        refine List.sorted_cons.mpr ⟨?_, ih hxs⟩
        intro b hb
        rcases mem_insertMonthKey.mp hb with rfl | hb'
        · omega
        · exact hx b hb'

theorem monthKeys_cons (r : FundingRecord) (rs : List FundingRecord) :
    monthKeys (r :: rs) =
      match toDatetimeMonth? r.month with
      | some k => insertMonthKey k (monthKeys rs)
      | none => monthKeys rs := rfl

theorem sorted_monthKeys (rs : List FundingRecord) :
    List.Sorted (· < ·) (monthKeys rs) := by
  induction rs with
  | nil => exact List.sorted_nil
  | cons r rs ih =>
    rw [monthKeys_cons]
    cases toDatetimeMonth? r.month
    · exact ih
    · exact sorted_insertMonthKey ih

theorem mem_monthKeys {rs : List FundingRecord} {k : Nat} :
    k ∈ monthKeys rs ↔ ∃ r ∈ rs, toDatetimeMonth? r.month = some k := by
  induction rs with
  | nil => simp [monthKeys]
  | cons r rs ih =>
    rw [monthKeys_cons]
    cases hm : toDatetimeMonth? r.month with
    | none =>
      constructor
      · intro h
        obtain ⟨r', hr', hk⟩ := ih.mp h
        exact ⟨r', List.mem_cons_of_mem _ hr', hk⟩
      · rintro ⟨r', hr', hk⟩
        rcases List.mem_cons.mp hr' with rfl | h'
        · rw [hm] at hk
          cases hk
        · exact ih.mpr ⟨r', h', hk⟩
    | some k' =>
      rw [mem_insertMonthKey, ih]
      constructor
      · rintro (rfl | ⟨r', hr', hk⟩)
        · exact ⟨r, List.mem_cons_self _ _, hm⟩
        · exact ⟨r', List.mem_cons_of_mem _ hr', hk⟩
      · rintro ⟨r', hr', hk⟩
        rcases List.mem_cons.mp hr' with rfl | h'
        · rw [hm] at hk
          exact Or.inl (Option.some.inj hk).symm
        · exact Or.inr ⟨r', h', hk⟩

/-- C6 counterexample: a record legitimately produced by the pipeline from
the date 25/09/1677 — itself after `Timestamp.min`, so the load succeeds —
carries the observed period `"1677-09"`, yet `monthlyFundingTotal` over
that one-record subset is empty: the period's first-of-month timestamp
1677-09-01 is out of bounds, `pd.to_datetime` coerces it to `NaT`, and the
`groupby` silently drops the group, so not every observed period appears. -/
theorem c6_counterexample :
    loadAndCleanRecords [row1677] = .ok [rec1677] ∧
    rec1677.month = "1677-09" ∧
    clean_date "25/09/1677" = some ⟨1677, 9, 25⟩ ∧
    tsRepresentable ⟨1677, 9, 25⟩ = true ∧
    monthlyFundingTotal [rec1677] = [] :=
  ⟨load_row1677, rfl, by decide, by decide, rfl⟩

/-- C6 (amended): `monthlyFundingTotal` groups records by those year-month
periods whose first day is representable as a pandas timestamp (months
1677-10 through 2262-04), sums `amountMillionsUsd` per group, and returns
the pairs in ascending period order with only observed in-range periods
present.  A record of the boundary month 1677-09 (producible from the dates
1677-09-22 .. 1677-09-30, which are themselves representable) has a period
whose `to_datetime` key coerces to `NaT` and is silently dropped from the
aggregation.  Over the example subset, periods 2015-01 (amounts 1 and 2)
and 2015-02 (amount 3), it returns exactly
`[("2015-01", 3), ("2015-02", 3)]`. -/
theorem c6_amended (rs : List FundingRecord) :
    List.Sorted (· < ·) (monthKeys rs) ∧
    (∀ k : Nat, k ∈ monthKeys rs ↔
      ∃ r ∈ rs, toDatetimeMonth? r.month = some k) ∧
    (∀ p ∈ monthlyFundingTotal rs, ∃ k ∈ monthKeys rs,
      p.1 = fmtMonthIdx k ∧
      p.2 = ((rs.filter (fun r => toDatetimeMonth? r.month = some k)).map
        (fun r => r.amount)).sum) ∧
    monthlyFundingTotal exMonthly = [("2015-01", 3), ("2015-02", 3)] := by
  refine ⟨sorted_monthKeys rs, fun k => mem_monthKeys, ?_, ?_⟩
  · intro p hp
    obtain ⟨k, hk, rfl⟩ := List.mem_map.mp hp
    exact ⟨k, hk, rfl, rfl⟩
  · have hk : monthKeys exMonthly = [12 * 2015 + 1, 12 * 2015 + 2] := by decide
    have e1 : ((exMonthly.filter
        (fun r => toDatetimeMonth? r.month = some (12 * 2015 + 1))).map
        (fun r => r.amount)).sum = 3 := by
      have hl : (exMonthly.filter
          (fun r => toDatetimeMonth? r.month = some (12 * 2015 + 1))).map
          (fun r => r.amount) = [1, 2] := by decide
      rw [hl]
      norm_num [List.sum_cons, List.sum_nil]
    have e2 : ((exMonthly.filter
        (fun r => toDatetimeMonth? r.month = some (12 * 2015 + 2))).map
        (fun r => r.amount)).sum = 3 := by
      have hl : (exMonthly.filter
          (fun r => toDatetimeMonth? r.month = some (12 * 2015 + 2))).map
          (fun r => r.amount) = [3] := by decide
      rw [hl]
      norm_num [List.sum_cons, List.sum_nil]
    unfold monthlyFundingTotal
    rw [hk]
    simp only [List.map_cons, List.map_nil]
    rw [e1, e2,
      show fmtMonthIdx (12 * 2015 + 1) = "2015-01" from by decide,
      show fmtMonthIdx (12 * 2015 + 2) = "2015-02" from by decide]

theorem c6_witness :
    ∃ k ∈ monthKeys exMonthly, (("2015-01", (3 : ℚ)) : String × ℚ).1 =
      fmtMonthIdx k ∧ (("2015-01", (3 : ℚ)) : String × ℚ).2 =
      ((exMonthly.filter (fun r => toDatetimeMonth? r.month = some k)).map
        (fun r => r.amount)).sum :=
  (c6_amended exMonthly).2.2.1 ("2015-01", 3)
    (by rw [(c6_amended exMonthly).2.2.2]; exact List.mem_cons_self _ _)

end Dashboard
